import Mathlib

/-!
A shallow embedding of the SignalWire live-transcription bridge
(`src/main.py`), centred on the `websocket_endpoint` media handler and the
`ActiveCall.get_transcript` callback.

Modelling conventions:
* bytes are `Nat`, byte strings are `List Nat`;
* the Deepgram websocket handle held in the Python variable
  `deepgram_socket` is modelled as an `Option Nat` connection id
  (`none` before a successful connect, as in Python's `deepgram_socket = None`);
* each received websocket text frame is an `Ev`: `malformed` is a frame that
  `json.loads` rejects (raising `JSONDecodeError`), the other constructors are
  the decoded JSON shapes dispatched on `data.get('event')`.  A `media` event
  carries the already-base64-decoded payload bytes.  A `start` event carries a
  `connectOk` flag recording whether `connect_to_deepgram()` succeeds — the
  environment's choice, made part of the input;
* a raised exception is modelled as the `Outcome.errored` result: in the
  Python source it escapes the `while True:` loop into the
  `except Exception as e:` block (which logs the fault) and the `finally:`
  block closes the websocket, ending the session;
* log lines are modelled as a small inductive `LogEntry`, one constructor per
  distinct `logger` call site in the handler.
-/

namespace SWBridge

/-- `buffer_size = 20 * 160` from `websocket_endpoint` (src/main.py line 94):
the flush threshold in bytes, per direction. -/
def buffer_size : Nat := 20 * 160

/-- The distinct log lines the media handler can emit:
`invalidJson` is `logger.error("Invalid JSON received.")` (line 100, executed
after every successful `json.loads`), `sessionStarting sid` is
`logger.info(f"{sid} - Session is starting...")` (line 109), and `fault` is
`logger.error(e)` in the `except` block (line 142). -/
inductive LogEntry where
  | invalidJson
  | sessionStarting (sid : String)
  | fault
  deriving DecidableEq

/-- One received websocket message, as seen by the handler loop after JSON
decoding.  `malformed` is a frame `json.loads` rejects; `start` carries
`data['start']['callSid']` (absent key → `none`) and whether the Deepgram
connect succeeds; `media` carries `data['media']['track']` and the
base64-decoded payload bytes; `other` is a well-formed JSON object whose
`event` field matches none of `start`/`media`/`stop`. -/
inductive Ev where
  | malformed
  | start (callSid : Option String) (connectOk : Bool)
  | media (track : Option String) (payload : List Nat)
  | stop
  | other
  deriving DecidableEq

/-- The handler's per-session state.  `deepgram_socket`, `in_buffer`,
`out_buffer` are the local variables of `websocket_endpoint`; connections are
numbered by `nextConn`; `opened` records every connection id returned by
`connect_to_deepgram()`, `closedSent` every connection that received the
`b''` terminator at `stop`, `sent` every audio frame passed to
`deepgram_socket.send(mixed.raw_data)`, and `logs` the emitted log lines.
`inHist`/`outHist` are observation fields recording exactly the bytes ever
appended by `in_buffer.extend(payload)` / `out_buffer.extend(payload)`. -/
structure St where
  deepgram_socket : Option Nat
  nextConn : Nat
  in_buffer : List Nat
  out_buffer : List Nat
  opened : List Nat
  closedSent : List Nat
  sent : List (List Nat)
  logs : List LogEntry
  inHist : List Nat
  outHist : List Nat
  deriving DecidableEq

/-- How one loop iteration ends: `cont` (fall through to the next
`websocket.receive()`), `stopped` (the `break` in the `stop` branch), or
`errored` (an exception escaped into the `except`/`finally` teardown). -/
inductive Outcome where
  | cont
  | stopped
  | errored
  deriving DecidableEq

/-- Modelled from the spec: the mixer implemented by pydub's
`AudioSegment.from_mono_audiosegments` (library code, not under src/).
Per the spec, the two equal-length 8-bit mono chunks are interleaved
sample-by-sample into one stereo chunk whose raw bytes alternate
channel 0 = inbound, channel 1 = outbound. -/
def from_mono_audiosegments : List Nat → List Nat → List Nat
  | a :: as, b :: bs => a :: b :: from_mono_audiosegments as bs
  | _, _ => []

/-- The even-index bytes of a byte string (channel 0 of an interleaved
stereo chunk). -/
def evenBytes : List Nat → List Nat
  | [] => []
  | [a] => [a]
  | a :: _ :: rest => a :: evenBytes rest

/-- The odd-index bytes of a byte string (channel 1 of an interleaved
stereo chunk). -/
def oddBytes : List Nat → List Nat
  | [] => []
  | [_] => []
  | _ :: b :: rest => b :: oddBytes rest

/-- Concatenated channel-0 bytes of a sequence of mixed frames. -/
def channel0 (frames : List (List Nat)) : List Nat :=
  (frames.map evenBytes).flatten

/-- Concatenated channel-1 bytes of a sequence of mixed frames. -/
def channel1 (frames : List (List Nat)) : List Nat :=
  (frames.map oddBytes).flatten

/-- The inner
`while len(in_buffer) >= buffer_size and len(out_buffer) >= buffer_size:`
loop of `websocket_endpoint` (lines 132-139).  Each iteration mixes the two
`buffer_size`-byte head slices and sends the result; `deepgram_socket.send`
on a `None` socket raises (`AttributeError`), modelled as `Except.error ()`,
before any buffer is trimmed.  The loop is written with explicit fuel to keep
it structurally recursive; every call passes `in_buffer.length` as fuel,
which suffices because each iteration removes `buffer_size ≥ 1` bytes from
`in_buffer`, so the fuel-exhausted fallback is unreachable. -/
def mixLoop (fuel : Nat) (socket : Option Nat) (inb outb : List Nat)
    (sent : List (List Nat)) :
    Except Unit (List Nat × List Nat × List (List Nat)) :=
  if buffer_size ≤ inb.length ∧ buffer_size ≤ outb.length then
    match socket with
    | none => Except.error ()
    | some c =>
      match fuel with
      | 0 => Except.ok (inb, outb, sent)
      | fuel' + 1 =>
        mixLoop fuel' (some c) (inb.drop buffer_size) (outb.drop buffer_size)
          (sent ++ [from_mono_audiosegments (inb.take buffer_size)
                      (outb.take buffer_size)])
  else
    Except.ok (inb, outb, sent)

/-- Run the mix-and-send loop on the current state: on success update the
buffers and the sent list; on a raised exception append the `fault` log
line (the `except` block) and end the session. -/
def runMix (s : St) : St × Outcome :=
  match mixLoop s.in_buffer.length s.deepgram_socket s.in_buffer s.out_buffer
      s.sent with
  | Except.ok (i, o, snt) =>
    ({ s with in_buffer := i, out_buffer := o, sent := snt }, Outcome.cont)
  | Except.error _ =>
    ({ s with logs := s.logs ++ [LogEntry.fault] }, Outcome.errored)

/-- One iteration of the `while True:` receive loop of `websocket_endpoint`
(lines 96-139) on one decoded message.  Mirrors the source: a `malformed`
frame raises at `json.loads` (before the spurious `invalidJson` log) and the
exception ends the session; every successfully decoded message first logs
`invalidJson` (line 100) and is then dispatched on its `event` field; every
branch except `stop` (which `break`s) and a raised exception falls through to
the mix-and-send loop. -/
def step (s : St) (ev : Ev) : St × Outcome :=
  match ev with
  | Ev.malformed => ({ s with logs := s.logs ++ [LogEntry.fault] }, Outcome.errored)
  | Ev.start callSid connectOk =>
    let s := { s with logs := s.logs ++ [LogEntry.invalidJson] }
    match callSid with
    | none => runMix s
    | some sid =>
      if sid = "" then
        runMix s
      else if connectOk then
        runMix { s with
          deepgram_socket := some s.nextConn,
          nextConn := s.nextConn + 1,
          opened := s.opened ++ [s.nextConn],
          logs := s.logs ++ [LogEntry.sessionStarting sid] }
      else
        ({ s with logs := s.logs ++ [LogEntry.fault] }, Outcome.errored)
  | Ev.media track payload =>
    let s := { s with logs := s.logs ++ [LogEntry.invalidJson] }
    let s := if track = some "inbound" then
        { s with in_buffer := s.in_buffer ++ payload,
                 inHist := s.inHist ++ payload }
      else s
    let s := if track = some "outbound" then
        { s with out_buffer := s.out_buffer ++ payload,
                 outHist := s.outHist ++ payload }
      else s
    runMix s
  | Ev.stop =>
    let s := { s with logs := s.logs ++ [LogEntry.invalidJson] }
    match s.deepgram_socket with
    | some c => ({ s with closedSent := s.closedSent ++ [c] }, Outcome.stopped)
    | none => (s, Outcome.stopped)
  | Ev.other =>
    runMix { s with logs := s.logs ++ [LogEntry.invalidJson] }

/-- Run the receive loop over a list of messages, halting at `break` or at a
raised exception; an exhausted message list leaves the loop waiting on
`websocket.receive()`, reported as `Outcome.cont`. -/
def run (s : St) : List Ev → St × Outcome
  | [] => (s, Outcome.cont)
  | ev :: rest =>
    match step s ev with
    | (s', Outcome.cont) => run s' rest
    | (s', o) => (s', o)

/-- The initial state of `websocket_endpoint`: `deepgram_socket = None` and
two empty byte buffers (lines 91-93). -/
def init : St :=
  { deepgram_socket := none, nextConn := 0, in_buffer := [], out_buffer := [],
    opened := [], closedSent := [], sent := [], logs := [],
    inHist := [], outHist := [] }

/-- The whole media websocket handler applied to a sequence of received
messages. -/
def websocket_endpoint (msgs : List Ev) : St × Outcome :=
  run init msgs

/-- The bytes a message appends to the inbound buffer: the payload of an
inbound-track `media` event, nothing otherwise. -/
def Ev.inboundPayload : Ev → List Nat
  | Ev.media track payload => if track = some "inbound" then payload else []
  | _ => []

/-- The bytes a message appends to the outbound buffer. -/
def Ev.outboundPayload : Ev → List Nat
  | Ev.media track payload => if track = some "outbound" then payload else []
  | _ => []

/-- The concatenation, in arrival order, of the payloads of the
inbound-track `media` events of a message list. -/
def inboundBytes (msgs : List Ev) : List Nat :=
  (msgs.map Ev.inboundPayload).flatten

/-- The concatenation, in arrival order, of the payloads of the
outbound-track `media` events of a message list. -/
def outboundBytes (msgs : List Ev) : List Nat :=
  (msgs.map Ev.outboundPayload).flatten

/-- Whether a message is a `media` event. -/
def Ev.isMedia : Ev → Bool
  | Ev.media _ _ => true
  | _ => false

/-- Whether a message is a `start` event. -/
def Ev.isStart : Ev → Bool
  | Ev.start _ _ => true
  | _ => false

/-- The number of `start` events in a message list. -/
def countStarts (msgs : List Ev) : Nat :=
  msgs.countP Ev.isStart

/-- Order-preservation invariant of the handler state: the channel-0 bytes
of the frames sent so far, followed by the bytes still buffered inbound, are
exactly the inbound bytes appended so far — and symmetrically for channel 1
and the outbound direction. -/
def StInv (s : St) : Prop :=
  channel0 s.sent ++ s.in_buffer = s.inHist ∧
  channel1 s.sent ++ s.out_buffer = s.outHist

/-- After a completed mix loop at least one direction holds fewer than
`buffer_size` bytes. -/
def BufInv (s : St) : Prop :=
  s.in_buffer.length < buffer_size ∨ s.out_buffer.length < buffer_size

/-- One entry of the `alternatives` array of a Deepgram result payload: a
JSON object with an optional `transcript` field. -/
structure TranscriptAlternative where
  transcript : Option String
  deriving DecidableEq

/-- The `channel` object of a Deepgram result payload, with an optional
`alternatives` array. -/
structure TranscriptChannel where
  alternatives : Option (List TranscriptAlternative)
  deriving DecidableEq

/-- A Deepgram result payload as inspected by `ActiveCall.get_transcript`,
with an optional `channel` object. -/
structure TranscriptData where
  channel : Option TranscriptChannel
  deriving DecidableEq

/-- `ActiveCall.get_transcript` (src/main.py lines 42-47):
`data.get('channel', {}).get('alternatives', [{}])[0].get('transcript')`
followed by `if transcript: logger.info(f"{self.sid} - {transcript}")`.
A missing `channel` key yields `{}`, whose `alternatives` lookup yields the
default `[{}]`; a present but empty `alternatives` list makes the `[0]`
index raise `IndexError`, modelled as `Except.error ()`.  The result is the
logged line, or `none` when the transcript is absent or empty (Python
truthiness of `if transcript:`). -/
def get_transcript (sid : String) (data : TranscriptData) :
    Except Unit (Option String) :=
  let alternatives : List TranscriptAlternative :=
    match data.channel with
    | none => [{ transcript := none }]
    | some ch =>
      match ch.alternatives with
      | none => [{ transcript := none }]
      | some l => l
  match alternatives with
  | [] => Except.error ()
  | a :: _ =>
    match a.transcript with
    | none => Except.ok none
    | some t =>
      if t = "" then Except.ok none
      else Except.ok (some (sid ++ " - " ++ t))

/-! ### Basic lemmas about the mixer and the channel projections -/

theorem buffer_size_pos : 0 < buffer_size := by decide

theorem length_from_mono (a b : List Nat) :
    (from_mono_audiosegments a b).length = 2 * min a.length b.length := by
  induction a generalizing b with
  | nil => cases b <;> simp [from_mono_audiosegments]
  | cons x xs ih =>
    cases b with
    | nil => simp [from_mono_audiosegments]
    | cons y ys =>
      simp only [from_mono_audiosegments, List.length_cons, ih]
      omega

theorem evenBytes_from_mono (a b : List Nat) (h : a.length = b.length) :
    evenBytes (from_mono_audiosegments a b) = a := by
  induction a generalizing b with
  | nil => cases b <;> simp_all [from_mono_audiosegments, evenBytes]
  | cons x xs ih =>
    cases b with
    | nil => simp at h
    | cons y ys =>
      simp only [from_mono_audiosegments, evenBytes]
      simp only [List.length_cons] at h
      rw [ih ys (by omega)]

theorem oddBytes_from_mono (a b : List Nat) (h : a.length = b.length) :
    oddBytes (from_mono_audiosegments a b) = b := by
  induction a generalizing b with
  | nil => cases b <;> simp_all [from_mono_audiosegments, oddBytes]
  | cons x xs ih =>
    cases b with
    | nil => simp at h
    | cons y ys =>
      simp only [from_mono_audiosegments, oddBytes]
      simp only [List.length_cons] at h
      rw [ih ys (by omega)]

@[simp] theorem channel0_nil : channel0 [] = [] := rfl

@[simp] theorem channel0_cons (f : List Nat) (fs : List (List Nat)) :
    channel0 (f :: fs) = evenBytes f ++ channel0 fs := by
  simp [channel0]

@[simp] theorem channel0_append (xs ys : List (List Nat)) :
    channel0 (xs ++ ys) = channel0 xs ++ channel0 ys := by
  simp [channel0]

@[simp] theorem channel1_nil : channel1 [] = [] := rfl

@[simp] theorem channel1_cons (f : List Nat) (fs : List (List Nat)) :
    channel1 (f :: fs) = oddBytes f ++ channel1 fs := by
  simp [channel1]

@[simp] theorem channel1_append (xs ys : List (List Nat)) :
    channel1 (xs ++ ys) = channel1 xs ++ channel1 ys := by
  simp [channel1]

/-! ### Lemmas about the mix-and-send loop -/

theorem mixLoop_not_ready (fuel : Nat) (socket : Option Nat)
    (inb outb : List Nat) (sent : List (List Nat))
    (h : ¬(buffer_size ≤ inb.length ∧ buffer_size ≤ outb.length)) :
    mixLoop fuel socket inb outb sent = Except.ok (inb, outb, sent) := by
  rw [mixLoop.eq_def, if_neg h]

theorem mixLoop_none_ready (fuel : Nat) (inb outb : List Nat)
    (sent : List (List Nat)) (h1 : buffer_size ≤ inb.length)
    (h2 : buffer_size ≤ outb.length) :
    mixLoop fuel none inb outb sent = Except.error () := by
  rw [mixLoop.eq_def, if_pos ⟨h1, h2⟩]

/-- Master characterization of the mix-and-send loop on a live socket, for any
sufficient fuel: it flushes exactly `min (⌊inbound⌋ / threshold) (⌊outbound⌋ / threshold)`
frames, consuming that many `buffer_size`-byte slices from the front of each
buffer; each emitted frame is `2 * buffer_size` bytes, and the channel
projections of the emitted frames are exactly the consumed head slices. -/
theorem mixLoop_some_spec (fuel : Nat) :
    ∀ (c : Nat) (inb outb : List Nat) (sent : List (List Nat)),
      inb.length ≤ fuel →
      ∃ frames,
        mixLoop fuel (some c) inb outb sent =
          Except.ok
            (inb.drop (min (inb.length / buffer_size) (outb.length / buffer_size) * buffer_size),
             outb.drop (min (inb.length / buffer_size) (outb.length / buffer_size) * buffer_size),
             sent ++ frames) ∧
        frames.length = min (inb.length / buffer_size) (outb.length / buffer_size) ∧
        (∀ f ∈ frames, f.length = 2 * buffer_size) ∧
        channel0 frames =
          inb.take (min (inb.length / buffer_size) (outb.length / buffer_size) * buffer_size) ∧
        channel1 frames =
          outb.take (min (inb.length / buffer_size) (outb.length / buffer_size) * buffer_size) := by
  induction fuel with
  | zero =>
    intro c inb outb sent hf
    have hlen : inb.length = 0 := Nat.le_zero.mp hf
    have hbs := buffer_size_pos
    have hnot : ¬(buffer_size ≤ inb.length ∧ buffer_size ≤ outb.length) := by omega
    refine ⟨[], ?_, by simp [hlen], by simp, by simp [hlen], by simp [hlen]⟩
    rw [mixLoop_not_ready _ _ _ _ _ hnot]
    simp [hlen]
  | succ fuel ih =>
    intro c inb outb sent hf
    by_cases hc : buffer_size ≤ inb.length ∧ buffer_size ≤ outb.length
    · obtain ⟨h1, h2⟩ := hc
      have hbs := buffer_size_pos
      have hstep : mixLoop (fuel + 1) (some c) inb outb sent =
          mixLoop fuel (some c) (inb.drop buffer_size) (outb.drop buffer_size)
            (sent ++ [from_mono_audiosegments (inb.take buffer_size)
                        (outb.take buffer_size)]) := by
        rw [mixLoop.eq_def, if_pos ⟨h1, h2⟩]
      have hf' : (inb.drop buffer_size).length ≤ fuel := by
        rw [List.length_drop]; omega
      obtain ⟨frames', heq, hlen', hall', hch0', hch1'⟩ :=
        ih c (inb.drop buffer_size) (outb.drop buffer_size)
          (sent ++ [from_mono_audiosegments (inb.take buffer_size)
                      (outb.take buffer_size)]) hf'
      have hdivi : inb.length / buffer_size =
          (inb.drop buffer_size).length / buffer_size + 1 := by
        rw [List.length_drop]
        exact Nat.div_eq_sub_div hbs h1
      have hdivo : outb.length / buffer_size =
          (outb.drop buffer_size).length / buffer_size + 1 := by
        rw [List.length_drop]
        exact Nat.div_eq_sub_div hbs h2
      have hk : min (inb.length / buffer_size) (outb.length / buffer_size) =
          min ((inb.drop buffer_size).length / buffer_size)
            ((outb.drop buffer_size).length / buffer_size) + 1 := by
        rw [hdivi, hdivo]; omega
      have htlen : (inb.take buffer_size).length = (outb.take buffer_size).length := by
        rw [List.length_take, List.length_take]; omega
      refine ⟨from_mono_audiosegments (inb.take buffer_size) (outb.take buffer_size)
        :: frames', ?_, ?_, ?_, ?_, ?_⟩
      · rw [hstep, heq, hk]
        simp only [List.drop_drop, Nat.succ_mul, List.append_assoc,
          List.singleton_append, Nat.add_comm buffer_size]
      · simp [hlen', hk]
      · intro f hfm
        rcases List.mem_cons.mp hfm with hfm | hfm
        · rw [hfm, length_from_mono, List.length_take, List.length_take]
          omega
        · exact hall' f hfm
      · rw [channel0_cons, evenBytes_from_mono _ _ htlen, hch0', hk, Nat.succ_mul]
        rw [Nat.add_comm (min ((inb.drop buffer_size).length / buffer_size)
          ((outb.drop buffer_size).length / buffer_size) * buffer_size) buffer_size]
        rw [List.take_add]
      · rw [channel1_cons, oddBytes_from_mono _ _ htlen, hch1', hk, Nat.succ_mul]
        rw [Nat.add_comm (min ((inb.drop buffer_size).length / buffer_size)
          ((outb.drop buffer_size).length / buffer_size) * buffer_size) buffer_size]
        rw [List.take_add]
    · have hbs := buffer_size_pos
      have hk0 : min (inb.length / buffer_size) (outb.length / buffer_size) = 0 := by
        rcases not_and_or.mp hc with h | h
        · have hlt : inb.length < buffer_size := by omega
          simp [Nat.div_eq_of_lt hlt]
        · have hlt : outb.length < buffer_size := by omega
          simp [Nat.div_eq_of_lt hlt]
      refine ⟨[], ?_, by simp [hk0], by simp, by simp [hk0], by simp [hk0]⟩
      rw [mixLoop_not_ready _ _ _ _ _ hc, hk0]
      simp

/-! ### Lemmas about `runMix` -/

theorem sub_min_div_mul_lt (i o N : Nat) (hN : 0 < N) :
    i - min (i / N) (o / N) * N < N ∨ o - min (i / N) (o / N) * N < N := by
  rcases Nat.le_total (i / N) (o / N) with hle | hle
  · left
    rw [Nat.min_eq_left hle]
    have h1 : i / N * N + i % N = i := Nat.div_add_mod' i N
    have hm : i % N < N := Nat.mod_lt _ hN
    generalize i / N * N = x at h1 ⊢
    omega
  · right
    rw [Nat.min_eq_right hle]
    have h1 : o / N * N + o % N = o := Nat.div_add_mod' o N
    have hm : o % N < N := Nat.mod_lt _ hN
    generalize o / N * N = x at h1 ⊢
    omega

theorem runMix_not_ready (s : St)
    (h : ¬(buffer_size ≤ s.in_buffer.length ∧ buffer_size ≤ s.out_buffer.length)) :
    runMix s = (s, Outcome.cont) := by
  unfold runMix
  rw [mixLoop_not_ready _ _ _ _ _ h]

theorem runMix_none_ready (s : St) (hs : s.deepgram_socket = none)
    (h1 : buffer_size ≤ s.in_buffer.length)
    (h2 : buffer_size ≤ s.out_buffer.length) :
    runMix s = ({ s with logs := s.logs ++ [LogEntry.fault] }, Outcome.errored) := by
  unfold runMix
  rw [hs, mixLoop_none_ready _ _ _ _ h1 h2]

theorem runMix_some_spec (s : St) (c : Nat) (hs : s.deepgram_socket = some c) :
    ∃ frames,
      runMix s =
        ({ s with
            in_buffer := s.in_buffer.drop
              (min (s.in_buffer.length / buffer_size)
                (s.out_buffer.length / buffer_size) * buffer_size),
            out_buffer := s.out_buffer.drop
              (min (s.in_buffer.length / buffer_size)
                (s.out_buffer.length / buffer_size) * buffer_size),
            sent := s.sent ++ frames }, Outcome.cont) ∧
      frames.length =
        min (s.in_buffer.length / buffer_size) (s.out_buffer.length / buffer_size) ∧
      (∀ f ∈ frames, f.length = 2 * buffer_size) ∧
      channel0 frames = s.in_buffer.take
        (min (s.in_buffer.length / buffer_size)
          (s.out_buffer.length / buffer_size) * buffer_size) ∧
      channel1 frames = s.out_buffer.take
        (min (s.in_buffer.length / buffer_size)
          (s.out_buffer.length / buffer_size) * buffer_size) := by
  obtain ⟨frames, heq, h2, h3, h4, h5⟩ :=
    mixLoop_some_spec s.in_buffer.length c s.in_buffer s.out_buffer s.sent
      (Nat.le_refl _)
  refine ⟨frames, ?_, h2, h3, h4, h5⟩
  unfold runMix
  rw [hs, heq]

theorem runMix_preserves (s : St) :
    (runMix s).1.deepgram_socket = s.deepgram_socket ∧
    (runMix s).1.nextConn = s.nextConn ∧
    (runMix s).1.opened = s.opened ∧
    (runMix s).1.closedSent = s.closedSent ∧
    (runMix s).1.inHist = s.inHist ∧
    (runMix s).1.outHist = s.outHist := by
  unfold runMix
  cases mixLoop s.in_buffer.length s.deepgram_socket s.in_buffer s.out_buffer
      s.sent with
  | error e => exact ⟨rfl, rfl, rfl, rfl, rfl, rfl⟩
  | ok x =>
    obtain ⟨i, o, snt⟩ := x
    exact ⟨rfl, rfl, rfl, rfl, rfl, rfl⟩

theorem runMix_outcome (s : St) :
    (runMix s).2 = Outcome.cont ∨ (runMix s).2 = Outcome.errored := by
  unfold runMix
  cases mixLoop s.in_buffer.length s.deepgram_socket s.in_buffer s.out_buffer
      s.sent with
  | error e => exact Or.inr rfl
  | ok x =>
    obtain ⟨i, o, snt⟩ := x
    exact Or.inl rfl

theorem runMix_cont_BufInv (s : St) (h : (runMix s).2 = Outcome.cont) :
    BufInv (runMix s).1 := by
  cases hs : s.deepgram_socket with
  | none =>
    by_cases hr : buffer_size ≤ s.in_buffer.length ∧ buffer_size ≤ s.out_buffer.length
    · rw [runMix_none_ready s hs hr.1 hr.2] at h
      exact absurd h (by simp)
    · rw [runMix_not_ready s hr]
      show s.in_buffer.length < buffer_size ∨ s.out_buffer.length < buffer_size
      rcases not_and_or.mp hr with hlt | hlt
      · exact Or.inl (by omega)
      · exact Or.inr (by omega)
  | some c =>
    obtain ⟨frames, heq, _, _, _, _⟩ := runMix_some_spec s c hs
    rw [heq]
    show (s.in_buffer.drop _).length < buffer_size ∨
      (s.out_buffer.drop _).length < buffer_size
    rw [List.length_drop, List.length_drop]
    exact sub_min_div_mul_lt _ _ _ buffer_size_pos

theorem runMix_StInv (s : St) (h : StInv s) : StInv (runMix s).1 := by
  cases hs : s.deepgram_socket with
  | none =>
    by_cases hr : buffer_size ≤ s.in_buffer.length ∧ buffer_size ≤ s.out_buffer.length
    · rw [runMix_none_ready s hs hr.1 hr.2]
      exact h
    · rw [runMix_not_ready s hr]
      exact h
  | some c =>
    obtain ⟨frames, heq, _, _, hch0, hch1⟩ := runMix_some_spec s c hs
    rw [heq]
    obtain ⟨hin, hout⟩ := h
    constructor
    · show channel0 (s.sent ++ frames) ++ s.in_buffer.drop _ = s.inHist
      rw [channel0_append, hch0, List.append_assoc, List.take_append_drop]
      exact hin
    · show channel1 (s.sent ++ frames) ++ s.out_buffer.drop _ = s.outHist
      rw [channel1_append, hch1, List.append_assoc, List.take_append_drop]
      exact hout

/-! ### Shape lemmas for `step` -/

theorem step_malformed (s : St) :
    step s Ev.malformed =
      ({ s with logs := s.logs ++ [LogEntry.fault] }, Outcome.errored) := rfl

theorem step_media_in (s : St) (p : List Nat) :
    step s (Ev.media (some "inbound") p) =
      runMix { s with logs := s.logs ++ [LogEntry.invalidJson],
                      in_buffer := s.in_buffer ++ p,
                      inHist := s.inHist ++ p } := by
  simp [step]

theorem step_media_out (s : St) (p : List Nat) :
    step s (Ev.media (some "outbound") p) =
      runMix { s with logs := s.logs ++ [LogEntry.invalidJson],
                      out_buffer := s.out_buffer ++ p,
                      outHist := s.outHist ++ p } := by
  simp [step]

theorem step_media_other (s : St) (track : Option String) (p : List Nat)
    (h1 : track ≠ some "inbound") (h2 : track ≠ some "outbound") :
    step s (Ev.media track p) =
      runMix { s with logs := s.logs ++ [LogEntry.invalidJson] } := by
  simp [step, h1, h2]

theorem step_start_none (s : St) (b : Bool) :
    step s (Ev.start none b) =
      runMix { s with logs := s.logs ++ [LogEntry.invalidJson] } := rfl

theorem step_start_empty (s : St) (b : Bool) :
    step s (Ev.start (some "") b) =
      runMix { s with logs := s.logs ++ [LogEntry.invalidJson] } := by
  simp [step]

theorem step_start_ok (s : St) (sid : String) (h : sid ≠ "") :
    step s (Ev.start (some sid) true) =
      runMix { s with
        deepgram_socket := some s.nextConn,
        nextConn := s.nextConn + 1,
        opened := s.opened ++ [s.nextConn],
        logs := s.logs ++ [LogEntry.invalidJson] ++ [LogEntry.sessionStarting sid] } := by
  simp [step, h]

theorem step_start_fail (s : St) (sid : String) (h : sid ≠ "") :
    step s (Ev.start (some sid) false) =
      ({ s with logs := s.logs ++ [LogEntry.invalidJson] ++ [LogEntry.fault] },
        Outcome.errored) := by
  simp [step, h]

theorem step_stop_some (s : St) (c : Nat) (h : s.deepgram_socket = some c) :
    step s Ev.stop =
      ({ s with logs := s.logs ++ [LogEntry.invalidJson],
                closedSent := s.closedSent ++ [c] }, Outcome.stopped) := by
  simp [step, h]

theorem step_stop_none (s : St) (h : s.deepgram_socket = none) :
    step s Ev.stop =
      ({ s with logs := s.logs ++ [LogEntry.invalidJson] }, Outcome.stopped) := by
  simp [step, h]

theorem step_other (s : St) :
    step s Ev.other =
      runMix { s with logs := s.logs ++ [LogEntry.invalidJson] } := rfl

/-! ### Shape lemmas for `run` -/

theorem run_nil (s : St) : run s [] = (s, Outcome.cont) := rfl

theorem run_cons_cont (s s' : St) (ev : Ev) (rest : List Ev)
    (h : step s ev = (s', Outcome.cont)) :
    run s (ev :: rest) = run s' rest := by
  rw [run, h]

theorem run_cons_halt (s s' : St) (ev : Ev) (rest : List Ev) (o : Outcome)
    (h : step s ev = (s', o)) (ho : o ≠ Outcome.cont) :
    run s (ev :: rest) = (s', o) := by
  rw [run, h]
  cases o with
  | cont => exact absurd rfl ho
  | stopped => rfl
  | errored => rfl

/-! ### Invariant preservation through `step` and `run` -/

theorem step_StInv (s : St) (ev : Ev) (h : StInv s) : StInv (step s ev).1 := by
  cases ev with
  | malformed => exact h
  | stop =>
    cases hs : s.deepgram_socket with
    | none => rw [step_stop_none s hs]; exact h
    | some c => rw [step_stop_some s c hs]; exact h
  | other => exact runMix_StInv _ h
  | start callSid connectOk =>
    cases callSid with
    | none => exact runMix_StInv _ h
    | some sid =>
      by_cases hsid : sid = ""
      · rw [hsid, step_start_empty]
        exact runMix_StInv _ h
      · cases connectOk with
        | false => rw [step_start_fail s sid hsid]; exact h
        | true => rw [step_start_ok s sid hsid]; exact runMix_StInv _ h
  | media track p =>
    by_cases hin : track = some "inbound"
    · rw [hin, step_media_in]
      refine runMix_StInv _ ⟨?_, ?_⟩
      · show channel0 s.sent ++ (s.in_buffer ++ p) = s.inHist ++ p
        rw [← List.append_assoc, h.1]
      · exact h.2
    · by_cases hout : track = some "outbound"
      · rw [hout, step_media_out]
        refine runMix_StInv _ ⟨?_, ?_⟩
        · exact h.1
        · show channel1 s.sent ++ (s.out_buffer ++ p) = s.outHist ++ p
          rw [← List.append_assoc, h.2]
      · rw [step_media_other s track p hin hout]
        exact runMix_StInv _ h

theorem step_not_errored_BufInv (s : St) (ev : Ev) (h : BufInv s)
    (hc : (step s ev).2 ≠ Outcome.errored) : BufInv (step s ev).1 := by
  cases ev with
  | malformed => rw [step_malformed] at hc; exact absurd rfl hc
  | stop =>
    cases hs : s.deepgram_socket with
    | none => rw [step_stop_none s hs]; exact h
    | some c => rw [step_stop_some s c hs]; exact h
  | other =>
    rw [step_other] at hc ⊢
    rcases runMix_outcome { s with logs := s.logs ++ [LogEntry.invalidJson] } with
      hco | hco
    · exact runMix_cont_BufInv _ hco
    · exact absurd hco hc
  | start callSid connectOk =>
    cases callSid with
    | none =>
      rw [step_start_none] at hc ⊢
      rcases runMix_outcome { s with logs := s.logs ++ [LogEntry.invalidJson] } with
        hco | hco
      · exact runMix_cont_BufInv _ hco
      · exact absurd hco hc
    | some sid =>
      by_cases hsid : sid = ""
      · rw [hsid, step_start_empty] at hc ⊢
        rcases runMix_outcome { s with logs := s.logs ++ [LogEntry.invalidJson] } with
          hco | hco
        · exact runMix_cont_BufInv _ hco
        · exact absurd hco hc
      · cases connectOk with
        | false => rw [step_start_fail s sid hsid] at hc; exact absurd rfl hc
        | true =>
          rw [step_start_ok s sid hsid] at hc ⊢
          rcases runMix_outcome _ with hco | hco
          · exact runMix_cont_BufInv _ hco
          · exact absurd hco hc
  | media track p =>
    by_cases hin : track = some "inbound"
    · rw [hin, step_media_in] at hc ⊢
      rcases runMix_outcome _ with hco | hco
      · exact runMix_cont_BufInv _ hco
      · exact absurd hco hc
    · by_cases hout : track = some "outbound"
      · rw [hout, step_media_out] at hc ⊢
        rcases runMix_outcome _ with hco | hco
        · exact runMix_cont_BufInv _ hco
        · exact absurd hco hc
      · rw [step_media_other s track p hin hout] at hc ⊢
        rcases runMix_outcome _ with hco | hco
        · exact runMix_cont_BufInv _ hco
        · exact absurd hco hc

theorem run_StInv (msgs : List Ev) :
    ∀ s : St, StInv s → StInv (run s msgs).1 := by
  induction msgs with
  | nil => intro s h; exact h
  | cons ev rest ih =>
    intro s h
    rcases hstep : step s ev with ⟨s', o⟩
    have hs' : StInv s' := by
      have := step_StInv s ev h
      rw [hstep] at this
      exact this
    cases o with
    | cont => rw [run_cons_cont s s' ev rest hstep]; exact ih s' hs'
    | stopped => rw [run_cons_halt s s' ev rest _ hstep (by simp)]; exact hs'
    | errored => rw [run_cons_halt s s' ev rest _ hstep (by simp)]; exact hs'

theorem run_BufInv (msgs : List Ev) :
    ∀ s : St, BufInv s → (run s msgs).2 ≠ Outcome.errored →
      BufInv (run s msgs).1 := by
  induction msgs with
  | nil => intro s h _; exact h
  | cons ev rest ih =>
    intro s h hne
    rcases hstep : step s ev with ⟨s', o⟩
    cases o with
    | cont =>
      rw [run_cons_cont s s' ev rest hstep] at hne ⊢
      have hs' : BufInv s' := by
        have := step_not_errored_BufInv s ev h (by rw [hstep]; simp)
        rw [hstep] at this
        exact this
      exact ih s' hs' hne
    | stopped =>
      rw [run_cons_halt s s' ev rest _ hstep (by simp)]
      have := step_not_errored_BufInv s ev h (by rw [hstep]; simp)
      rw [hstep] at this
      exact this
    | errored =>
      rw [run_cons_halt s s' ev rest _ hstep (by simp)] at hne
      exact absurd rfl hne

/-! ### History, connection and media-only lemmas -/

@[simp] theorem inboundBytes_nil : inboundBytes [] = [] := rfl

@[simp] theorem inboundBytes_cons (ev : Ev) (rest : List Ev) :
    inboundBytes (ev :: rest) = ev.inboundPayload ++ inboundBytes rest := by
  simp [inboundBytes]

@[simp] theorem outboundBytes_nil : outboundBytes [] = [] := rfl

@[simp] theorem outboundBytes_cons (ev : Ev) (rest : List Ev) :
    outboundBytes (ev :: rest) = ev.outboundPayload ++ outboundBytes rest := by
  simp [outboundBytes]

theorem step_hist (s : St) (ev : Ev) :
    (step s ev).1.inHist = s.inHist ++ ev.inboundPayload ∧
    (step s ev).1.outHist = s.outHist ++ ev.outboundPayload := by
  cases ev with
  | malformed => simp [step_malformed, Ev.inboundPayload, Ev.outboundPayload]
  | stop =>
    cases hs : s.deepgram_socket with
    | none =>
      simp [step_stop_none s hs, Ev.inboundPayload, Ev.outboundPayload]
    | some c =>
      simp [step_stop_some s c hs, Ev.inboundPayload, Ev.outboundPayload]
  | other =>
    rw [step_other]
    rw [(runMix_preserves _).2.2.2.2.1, (runMix_preserves _).2.2.2.2.2]
    simp [Ev.inboundPayload, Ev.outboundPayload]
  | start callSid connectOk =>
    cases callSid with
    | none =>
      rw [step_start_none]
      rw [(runMix_preserves _).2.2.2.2.1, (runMix_preserves _).2.2.2.2.2]
      simp [Ev.inboundPayload, Ev.outboundPayload]
    | some sid =>
      by_cases hsid : sid = ""
      · rw [hsid, step_start_empty]
        rw [(runMix_preserves _).2.2.2.2.1, (runMix_preserves _).2.2.2.2.2]
        simp [Ev.inboundPayload, Ev.outboundPayload]
      · cases connectOk with
        | false =>
          simp [step_start_fail s sid hsid, Ev.inboundPayload, Ev.outboundPayload]
        | true =>
          rw [step_start_ok s sid hsid]
          rw [(runMix_preserves _).2.2.2.2.1, (runMix_preserves _).2.2.2.2.2]
          simp [Ev.inboundPayload, Ev.outboundPayload]
  | media track p =>
    by_cases hin : track = some "inbound"
    · rw [hin, step_media_in]
      rw [(runMix_preserves _).2.2.2.2.1, (runMix_preserves _).2.2.2.2.2]
      simp [Ev.inboundPayload, Ev.outboundPayload]
    · by_cases hout : track = some "outbound"
      · rw [hout, step_media_out]
        rw [(runMix_preserves _).2.2.2.2.1, (runMix_preserves _).2.2.2.2.2]
        simp [Ev.inboundPayload, Ev.outboundPayload, hout, hin]
      · rw [step_media_other s track p hin hout]
        rw [(runMix_preserves _).2.2.2.2.1, (runMix_preserves _).2.2.2.2.2]
        simp [Ev.inboundPayload, Ev.outboundPayload, hin, hout]

theorem run_cont_hist (msgs : List Ev) :
    ∀ s : St, (run s msgs).2 = Outcome.cont →
      (run s msgs).1.inHist = s.inHist ++ inboundBytes msgs ∧
      (run s msgs).1.outHist = s.outHist ++ outboundBytes msgs := by
  induction msgs with
  | nil => intro s _; simp [run_nil]
  | cons ev rest ih =>
    intro s hc
    rcases hstep : step s ev with ⟨s', o⟩
    have hh := step_hist s ev
    rw [hstep] at hh
    cases o with
    | cont =>
      rw [run_cons_cont s s' ev rest hstep] at hc ⊢
      obtain ⟨h1, h2⟩ := ih s' hc
      rw [h1, h2, hh.1, hh.2]
      constructor <;> simp [List.append_assoc]
    | stopped =>
      rw [run_cons_halt s s' ev rest _ hstep (by simp)] at hc
      exact absurd hc (by simp)
    | errored =>
      rw [run_cons_halt s s' ev rest _ hstep (by simp)] at hc
      exact absurd hc (by simp)

/-! ### Connection accounting lemmas -/

theorem step_conn (s : St) (ev : Ev)
    (hsock : ∀ c, s.deepgram_socket = some c → c ∈ s.opened)
    (hclosed : ∀ c ∈ s.closedSent, c ∈ s.opened) :
    (∀ c, (step s ev).1.deepgram_socket = some c → c ∈ (step s ev).1.opened) ∧
    (∀ c ∈ (step s ev).1.closedSent, c ∈ (step s ev).1.opened) ∧
    (step s ev).1.opened.length ≤
      s.opened.length + (if ev.isStart then 1 else 0) := by
  have hMix : ∀ x : St,
      (∀ c, x.deepgram_socket = some c → c ∈ x.opened) →
      (∀ c ∈ x.closedSent, c ∈ x.opened) →
      (∀ c, (runMix x).1.deepgram_socket = some c → c ∈ (runMix x).1.opened) ∧
      (∀ c ∈ (runMix x).1.closedSent, c ∈ (runMix x).1.opened) ∧
      (runMix x).1.opened.length = x.opened.length := by
    intro x h1 h2
    obtain ⟨hs, _, ho, hc, _, _⟩ := runMix_preserves x
    rw [hs, ho, hc]
    exact ⟨h1, h2, rfl⟩
  cases ev with
  | malformed =>
    rw [step_malformed]
    exact ⟨hsock, hclosed, by simp [Ev.isStart]⟩
  | stop =>
    cases hs : s.deepgram_socket with
    | none =>
      rw [step_stop_none s hs]
      exact ⟨hsock, hclosed, by simp [Ev.isStart]⟩
    | some c =>
      rw [step_stop_some s c hs]
      refine ⟨hsock, ?_, by simp [Ev.isStart]⟩
      intro x hx
      rcases List.mem_append.mp hx with hx | hx
      · exact hclosed x hx
      · rw [List.mem_singleton.mp hx]
        exact hsock c hs
  | other =>
    rw [step_other]
    obtain ⟨h1, h2, h3⟩ :=
      hMix { s with logs := s.logs ++ [LogEntry.invalidJson] } hsock hclosed
    exact ⟨h1, h2, by rw [h3]; simp [Ev.isStart]⟩
  | media track p =>
    by_cases hin : track = some "inbound"
    · rw [hin, step_media_in]
      obtain ⟨h1, h2, h3⟩ :=
        hMix { s with
          logs := s.logs ++ [LogEntry.invalidJson]
          in_buffer := s.in_buffer ++ p
          inHist := s.inHist ++ p } hsock hclosed
      exact ⟨h1, h2, by rw [h3]; simp [Ev.isStart]⟩
    · by_cases hout : track = some "outbound"
      · rw [hout, step_media_out]
        obtain ⟨h1, h2, h3⟩ :=
          hMix { s with
            logs := s.logs ++ [LogEntry.invalidJson]
            out_buffer := s.out_buffer ++ p
            outHist := s.outHist ++ p } hsock hclosed
        exact ⟨h1, h2, by rw [h3]; simp [Ev.isStart]⟩
      · rw [step_media_other s track p hin hout]
        obtain ⟨h1, h2, h3⟩ :=
          hMix { s with logs := s.logs ++ [LogEntry.invalidJson] } hsock hclosed
        exact ⟨h1, h2, by rw [h3]; simp [Ev.isStart]⟩
  | start callSid connectOk =>
    cases callSid with
    | none =>
      rw [step_start_none]
      obtain ⟨h1, h2, h3⟩ :=
        hMix { s with logs := s.logs ++ [LogEntry.invalidJson] } hsock hclosed
      exact ⟨h1, h2, by rw [h3]; simp [Ev.isStart]⟩
    | some sid =>
      by_cases hsid : sid = ""
      · rw [hsid, step_start_empty]
        obtain ⟨h1, h2, h3⟩ :=
          hMix { s with logs := s.logs ++ [LogEntry.invalidJson] } hsock hclosed
        exact ⟨h1, h2, by rw [h3]; simp [Ev.isStart]⟩
      · cases connectOk with
        | false =>
          rw [step_start_fail s sid hsid]
          exact ⟨hsock, hclosed, by simp [Ev.isStart]⟩
        | true =>
          rw [step_start_ok s sid hsid]
          obtain ⟨h1, h2, h3⟩ := hMix
            { s with
              deepgram_socket := some s.nextConn
              nextConn := s.nextConn + 1
              opened := s.opened ++ [s.nextConn]
              logs := s.logs ++ [LogEntry.invalidJson] ++
                [LogEntry.sessionStarting sid] }
            (by
              intro c hc
              simp only at hc
              simp [← Option.some_inj.mp hc])
            (by
              intro c hc
              simp only at hc
              exact List.mem_append_left _ (hclosed c hc))
          refine ⟨h1, h2, ?_⟩
          rw [h3]
          simp [Ev.isStart]

theorem run_conn (msgs : List Ev) :
    ∀ s : St,
      (∀ c, s.deepgram_socket = some c → c ∈ s.opened) →
      (∀ c ∈ s.closedSent, c ∈ s.opened) →
      (∀ c ∈ (run s msgs).1.closedSent, c ∈ (run s msgs).1.opened) ∧
      (run s msgs).1.opened.length ≤ s.opened.length + countStarts msgs := by
  induction msgs with
  | nil =>
    intro s _ h2
    refine ⟨h2, ?_⟩
    rw [run_nil]
    simp [countStarts]
  | cons ev rest ih =>
    intro s h1 h2
    rcases hstep : step s ev with ⟨s', o⟩
    have hconn := step_conn s ev h1 h2
    rw [hstep] at hconn
    obtain ⟨g1, g2, g3⟩ := hconn
    dsimp only at g1 g2 g3
    have hcount : countStarts (ev :: rest) =
        (if ev.isStart then 1 else 0) + countStarts rest := by
      simp [countStarts, List.countP_cons]
      split <;> omega
    cases o with
    | cont =>
      rw [run_cons_cont s s' ev rest hstep]
      obtain ⟨r1, r2⟩ := ih s' g1 g2
      refine ⟨r1, ?_⟩
      rw [hcount]
      omega
    | stopped =>
      rw [run_cons_halt s s' ev rest _ hstep (by simp)]
      refine ⟨g2, ?_⟩
      dsimp only
      rw [hcount]
      omega
    | errored =>
      rw [run_cons_halt s s' ev rest _ hstep (by simp)]
      refine ⟨g2, ?_⟩
      dsimp only
      rw [hcount]
      omega

/-! ### Media-only runs, log shapes, and stop behaviour -/

theorem runMix_logs (s : St) :
    (runMix s).1.logs = s.logs ∨
    (runMix s).1.logs = s.logs ++ [LogEntry.fault] := by
  unfold runMix
  cases mixLoop s.in_buffer.length s.deepgram_socket s.in_buffer s.out_buffer
      s.sent with
  | error e => exact Or.inr rfl
  | ok x =>
    obtain ⟨i, o, snt⟩ := x
    exact Or.inl rfl

theorem step_logs_invalidJson (s : St) (ev : Ev) (h : ev ≠ Ev.malformed) :
    ∃ tail, (step s ev).1.logs = s.logs ++ LogEntry.invalidJson :: tail ∧
      LogEntry.invalidJson ∉ tail := by
  have hMix : ∀ (x : St) (pre : List LogEntry),
      x.logs = s.logs ++ LogEntry.invalidJson :: pre →
      LogEntry.invalidJson ∉ pre →
      ∃ tail, (runMix x).1.logs = s.logs ++ LogEntry.invalidJson :: tail ∧
        LogEntry.invalidJson ∉ tail := by
    intro x pre hx hpre
    rcases runMix_logs x with hl | hl
    · exact ⟨pre, by rw [hl, hx], hpre⟩
    · refine ⟨pre ++ [LogEntry.fault], ?_, ?_⟩
      · rw [hl, hx]
        simp
      · simp [hpre]
  cases ev with
  | malformed => exact absurd rfl h
  | stop =>
    cases hs : s.deepgram_socket with
    | none => exact ⟨[], by rw [step_stop_none s hs], by simp⟩
    | some c => exact ⟨[], by rw [step_stop_some s c hs], by simp⟩
  | other =>
    rw [step_other]
    exact hMix _ [] (by simp) (by simp)
  | start callSid connectOk =>
    cases callSid with
    | none =>
      rw [step_start_none]
      exact hMix _ [] (by simp) (by simp)
    | some sid =>
      by_cases hsid : sid = ""
      · rw [hsid, step_start_empty]
        exact hMix _ [] (by simp) (by simp)
      · cases connectOk with
        | false =>
          rw [step_start_fail s sid hsid]
          exact ⟨[LogEntry.fault], by simp, by simp⟩
        | true =>
          rw [step_start_ok s sid hsid]
          exact hMix _ [LogEntry.sessionStarting sid] (by simp) (by simp)
  | media track p =>
    by_cases hin : track = some "inbound"
    · rw [hin, step_media_in]
      exact hMix _ [] (by simp) (by simp)
    · by_cases hout : track = some "outbound"
      · rw [hout, step_media_out]
        exact hMix _ [] (by simp) (by simp)
      · rw [step_media_other s track p hin hout]
        exact hMix _ [] (by simp) (by simp)

theorem step_stop_sent (s : St) :
    (step s Ev.stop).1.sent = s.sent ∧ (step s Ev.stop).2 = Outcome.stopped := by
  cases hs : s.deepgram_socket with
  | none => rw [step_stop_none s hs]; exact ⟨rfl, rfl⟩
  | some c => rw [step_stop_some s c hs]; exact ⟨rfl, rfl⟩

theorem run_media_only (msgs : List Ev) :
    ∀ s : St, (∀ ev ∈ msgs, ev.isMedia = true) →
      s.deepgram_socket = none →
      (s.in_buffer.length + (inboundBytes msgs).length < buffer_size ∨
        s.out_buffer.length + (outboundBytes msgs).length < buffer_size) →
      (run s msgs).1.opened = s.opened ∧
      (run s msgs).1.sent = s.sent ∧
      (run s msgs).2 = Outcome.cont := by
  induction msgs with
  | nil =>
    intro s _ _ _
    rw [run_nil]
    exact ⟨rfl, rfl, rfl⟩
  | cons ev rest ih =>
    intro s hall hs hbound
    have hev : ev.isMedia = true := hall ev (List.mem_cons_self ev rest)
    have hrest : ∀ e ∈ rest, e.isMedia = true :=
      fun e he => hall e (List.mem_cons_of_mem ev he)
    cases ev with
    | malformed => exact absurd hev (by simp [Ev.isMedia])
    | stop => exact absurd hev (by simp [Ev.isMedia])
    | other => exact absurd hev (by simp [Ev.isMedia])
    | start a b => exact absurd hev (by simp [Ev.isMedia])
    | media track p =>
      by_cases hin : track = some "inbound"
      · subst hin
        have hinb : (inboundBytes (Ev.media (some "inbound") p :: rest)).length =
            p.length + (inboundBytes rest).length := by
          simp [inboundBytes_cons, Ev.inboundPayload]
        have houtb : (outboundBytes (Ev.media (some "inbound") p :: rest)).length =
            (outboundBytes rest).length := by
          simp [outboundBytes_cons, Ev.outboundPayload]
        have hbound' :
            ({ s with
                logs := s.logs ++ [LogEntry.invalidJson]
                in_buffer := s.in_buffer ++ p
                inHist := s.inHist ++ p } : St).in_buffer.length
              + (inboundBytes rest).length < buffer_size ∨
            ({ s with
                logs := s.logs ++ [LogEntry.invalidJson]
                in_buffer := s.in_buffer ++ p
                inHist := s.inHist ++ p } : St).out_buffer.length
              + (outboundBytes rest).length < buffer_size := by
          rcases hbound with hb | hb
          · left
            rw [hinb] at hb
            dsimp only
            rw [List.length_append]
            omega
          · right
            rw [houtb] at hb
            dsimp only
            omega
        have hnr : ¬(buffer_size ≤
            ({ s with
                logs := s.logs ++ [LogEntry.invalidJson]
                in_buffer := s.in_buffer ++ p
                inHist := s.inHist ++ p } : St).in_buffer.length ∧
            buffer_size ≤
            ({ s with
                logs := s.logs ++ [LogEntry.invalidJson]
                in_buffer := s.in_buffer ++ p
                inHist := s.inHist ++ p } : St).out_buffer.length) := by
          rcases hbound' with hb | hb
          · intro hco
            omega
          · intro hco
            omega
        have hstep : step s (Ev.media (some "inbound") p) =
            ({ s with
                logs := s.logs ++ [LogEntry.invalidJson]
                in_buffer := s.in_buffer ++ p
                inHist := s.inHist ++ p }, Outcome.cont) := by
          rw [step_media_in, runMix_not_ready _ hnr]
        rw [run_cons_cont _ _ _ _ hstep]
        obtain ⟨r1, r2, r3⟩ := ih
          { s with
            logs := s.logs ++ [LogEntry.invalidJson]
            in_buffer := s.in_buffer ++ p
            inHist := s.inHist ++ p } hrest hs hbound'
        exact ⟨r1, r2, r3⟩
      · by_cases hout : track = some "outbound"
        · subst hout
          have hinb : (inboundBytes (Ev.media (some "outbound") p :: rest)).length =
              (inboundBytes rest).length := by
            simp [inboundBytes_cons, Ev.inboundPayload]
          have houtb : (outboundBytes (Ev.media (some "outbound") p :: rest)).length =
              p.length + (outboundBytes rest).length := by
            simp [outboundBytes_cons, Ev.outboundPayload]
          have hbound' :
              ({ s with
                  out_buffer := s.out_buffer ++ p
                  outHist := s.outHist ++ p
                  logs := s.logs ++ [LogEntry.invalidJson] } : St).in_buffer.length
                + (inboundBytes rest).length < buffer_size ∨
              ({ s with
                  out_buffer := s.out_buffer ++ p
                  outHist := s.outHist ++ p
                  logs := s.logs ++ [LogEntry.invalidJson] } : St).out_buffer.length
                + (outboundBytes rest).length < buffer_size := by
            rcases hbound with hb | hb
            · left
              rw [hinb] at hb
              dsimp only
              omega
            · right
              rw [houtb] at hb
              dsimp only
              rw [List.length_append]
              omega
          have hnr : ¬(buffer_size ≤
              ({ s with
                  out_buffer := s.out_buffer ++ p
                  outHist := s.outHist ++ p
                  logs := s.logs ++ [LogEntry.invalidJson] } : St).in_buffer.length ∧
              buffer_size ≤
              ({ s with
                  out_buffer := s.out_buffer ++ p
                  outHist := s.outHist ++ p
                  logs := s.logs ++ [LogEntry.invalidJson] } : St).out_buffer.length) := by
            rcases hbound' with hb | hb
            · intro hco
              omega
            · intro hco
              omega
          have hstep : step s (Ev.media (some "outbound") p) =
              ({ s with
                  out_buffer := s.out_buffer ++ p
                  outHist := s.outHist ++ p
                  logs := s.logs ++ [LogEntry.invalidJson] }, Outcome.cont) := by
            rw [step_media_out, runMix_not_ready _ hnr]
          rw [run_cons_cont _ _ _ _ hstep]
          obtain ⟨r1, r2, r3⟩ := ih
            { s with
              out_buffer := s.out_buffer ++ p
              outHist := s.outHist ++ p
              logs := s.logs ++ [LogEntry.invalidJson] } hrest hs hbound'
          exact ⟨r1, r2, r3⟩
        · have hinb : (inboundBytes (Ev.media track p :: rest)).length =
              (inboundBytes rest).length := by
            simp [inboundBytes_cons, Ev.inboundPayload, hin]
          have houtb : (outboundBytes (Ev.media track p :: rest)).length =
              (outboundBytes rest).length := by
            simp [outboundBytes_cons, Ev.outboundPayload, hout]
          have hbound' :
              ({ s with logs := s.logs ++ [LogEntry.invalidJson] } : St).in_buffer.length
                + (inboundBytes rest).length < buffer_size ∨
              ({ s with logs := s.logs ++ [LogEntry.invalidJson] } : St).out_buffer.length
                + (outboundBytes rest).length < buffer_size := by
            rcases hbound with hb | hb
            · left
              rw [hinb] at hb
              dsimp only
              omega
            · right
              rw [houtb] at hb
              dsimp only
              omega
          have hnr : ¬(buffer_size ≤
              ({ s with logs := s.logs ++ [LogEntry.invalidJson] } : St).in_buffer.length ∧
              buffer_size ≤
              ({ s with logs := s.logs ++ [LogEntry.invalidJson] } : St).out_buffer.length) := by
            rcases hbound' with hb | hb
            · intro hco
              omega
            · intro hco
              omega
          have hstep : step s (Ev.media track p) =
              ({ s with logs := s.logs ++ [LogEntry.invalidJson] }, Outcome.cont) := by
            rw [step_media_other s track p hin hout, runMix_not_ready _ hnr]
          rw [run_cons_cont _ _ _ _ hstep]
          obtain ⟨r1, r2, r3⟩ := ih
            { s with logs := s.logs ++ [LogEntry.invalidJson] } hrest hs hbound'
          exact ⟨r1, r2, r3⟩

/-! ### Claim theorems -/

/-- C1 (confirmed).  Threshold flush: on a live socket the mix loop emits a
frame iff both buffers hold at least `buffer_size = 20*160 = 3200` bytes
(`1 ≤ frames.length ↔ ...`), emits exactly
`min (inbound/threshold) (outbound/threshold)` frames, consumes exactly
`buffer_size` bytes per flush from the front of each buffer (the remaining
buffers are `drop (k * buffer_size)` and the frames carry the corresponding
`take` slices), and never flushes while either buffer is below threshold
(the count is then `0` and the result returns the buffers unchanged). -/
theorem threshold_flush (c : Nat) (inb outb : List Nat)
    (sent : List (List Nat)) :
    buffer_size = 3200 ∧
    ∃ frames,
      mixLoop inb.length (some c) inb outb sent =
        Except.ok
          (inb.drop (min (inb.length / buffer_size)
            (outb.length / buffer_size) * buffer_size),
           outb.drop (min (inb.length / buffer_size)
            (outb.length / buffer_size) * buffer_size),
           sent ++ frames) ∧
      frames.length =
        min (inb.length / buffer_size) (outb.length / buffer_size) ∧
      (∀ f ∈ frames, f.length = 2 * buffer_size) ∧
      channel0 frames = inb.take (min (inb.length / buffer_size)
        (outb.length / buffer_size) * buffer_size) ∧
      channel1 frames = outb.take (min (inb.length / buffer_size)
        (outb.length / buffer_size) * buffer_size) ∧
      (1 ≤ frames.length ↔
        (buffer_size ≤ inb.length ∧ buffer_size ≤ outb.length)) := by
  refine ⟨rfl, ?_⟩
  obtain ⟨frames, h1, h2, h3, h4, h5⟩ :=
    mixLoop_some_spec inb.length c inb outb sent (Nat.le_refl _)
  refine ⟨frames, h1, h2, h3, h4, h5, ?_⟩
  rw [h2, le_min_iff, Nat.one_le_div_iff buffer_size_pos,
    Nat.one_le_div_iff buffer_size_pos]

/-- C1 witness: the characterization applied at a concrete input
(one full slice on each side). -/
theorem threshold_flush_check :
    buffer_size = 3200 ∧
    ∃ frames,
      mixLoop (List.replicate 3200 (1 : Nat)).length (some 0)
          (List.replicate 3200 1) (List.replicate 3200 2) [] =
        Except.ok
          ((List.replicate 3200 (1 : Nat)).drop
            (min ((List.replicate 3200 (1 : Nat)).length / buffer_size)
              ((List.replicate 3200 (2 : Nat)).length / buffer_size) * buffer_size),
           (List.replicate 3200 (2 : Nat)).drop
            (min ((List.replicate 3200 (1 : Nat)).length / buffer_size)
              ((List.replicate 3200 (2 : Nat)).length / buffer_size) * buffer_size),
           [] ++ frames) ∧
      frames.length =
        min ((List.replicate 3200 (1 : Nat)).length / buffer_size)
          ((List.replicate 3200 (2 : Nat)).length / buffer_size) ∧
      (∀ f ∈ frames, f.length = 2 * buffer_size) ∧
      channel0 frames = (List.replicate 3200 (1 : Nat)).take
        (min ((List.replicate 3200 (1 : Nat)).length / buffer_size)
          ((List.replicate 3200 (2 : Nat)).length / buffer_size) * buffer_size) ∧
      channel1 frames = (List.replicate 3200 (2 : Nat)).take
        (min ((List.replicate 3200 (1 : Nat)).length / buffer_size)
          ((List.replicate 3200 (2 : Nat)).length / buffer_size) * buffer_size) ∧
      (1 ≤ frames.length ↔
        (buffer_size ≤ (List.replicate 3200 (1 : Nat)).length ∧
         buffer_size ≤ (List.replicate 3200 (2 : Nat)).length)) :=
  threshold_flush 0 (List.replicate 3200 1) (List.replicate 3200 2) []

/-- C2 (confirmed).  Mixing round-trip: for equal-length chunks `a` (inbound)
and `b` (outbound), the mixed output has length `2 * N`, its even-index bytes
are exactly `a` (channel 0) and its odd-index bytes exactly `b` (channel 1),
so de-interleaving recovers both chunks. -/
theorem mixing_round_trip (a b : List Nat) (h : a.length = b.length) :
    (from_mono_audiosegments a b).length = 2 * a.length ∧
    evenBytes (from_mono_audiosegments a b) = a ∧
    oddBytes (from_mono_audiosegments a b) = b := by
  refine ⟨?_, evenBytes_from_mono a b h, oddBytes_from_mono a b h⟩
  rw [length_from_mono, h, Nat.min_self]

/-- C2 witness at a concrete pair of equal-length chunks. -/
theorem mixing_round_trip_check :
    ([10, 20, 30] : List Nat).length = ([40, 50, 60] : List Nat).length ∧
    ((from_mono_audiosegments [10, 20, 30] [40, 50, 60]).length =
        2 * ([10, 20, 30] : List Nat).length ∧
      evenBytes (from_mono_audiosegments [10, 20, 30] [40, 50, 60]) = [10, 20, 30] ∧
      oddBytes (from_mono_audiosegments [10, 20, 30] [40, 50, 60]) = [40, 50, 60]) :=
  ⟨by decide, mixing_round_trip [10, 20, 30] [40, 50, 60] (by decide)⟩

/-- C8 counterexample: a result payload whose `alternatives` field is an
explicitly empty list makes `get_transcript` raise (`IndexError` from the
`[0]` index), contradicting the claim that such payloads are handled without
failing. -/
theorem transcript_empty_alternatives_cex :
    get_transcript "CA1" { channel := some { alternatives := some [] } } =
      Except.error () := rfl

/-- C8 (corrected).  Transcript extraction: the logged text is the first
alternative transcript of the `channel` field tagged with the call sid, and
nothing is logged when the transcript is absent or empty or when the
`channel`/`alternatives` keys are missing (the dict lookups fall back to
defaults); but a payload carrying a present-and-empty `alternatives` list
raises instead of being handled. -/
theorem transcript_extraction (sid t : String)
    (alt : List TranscriptAlternative) (ht : t ≠ "") :
    get_transcript sid { channel := none } = Except.ok none ∧
    get_transcript sid { channel := some { alternatives := none } } =
      Except.ok none ∧
    get_transcript sid
        { channel := some { alternatives := some ({ transcript := none } :: alt) } } =
      Except.ok none ∧
    get_transcript sid
        { channel := some { alternatives := some ({ transcript := some "" } :: alt) } } =
      Except.ok none ∧
    get_transcript sid
        { channel := some { alternatives := some ({ transcript := some t } :: alt) } } =
      Except.ok (some (sid ++ " - " ++ t)) ∧
    get_transcript sid { channel := some { alternatives := some [] } } =
      Except.error () := by
  refine ⟨rfl, rfl, rfl, rfl, ?_, rfl⟩
  simp [get_transcript, ht]

/-- C8 witness at a concrete sid and non-empty transcript. -/
theorem transcript_extraction_check :
    ("hello" : String) ≠ "" ∧
    get_transcript "CA1"
        { channel := some { alternatives := some [{ transcript := some "hello" }] } } =
      Except.ok (some ("CA1" ++ " - " ++ "hello")) :=
  ⟨by decide,
    (transcript_extraction "CA1" "hello" [] (by decide)).2.2.2.2.1⟩

/-- C10 (confirmed).  Every message that decodes as JSON — start, media,
stop or unrecognized — makes the handler emit the spurious error line
`"Invalid JSON received."` immediately after decoding, before any dispatch
logging (the line is appended right after the previous logs, exactly once);
an undecodable frame does not produce it (its exception is logged as the
fault instead). -/
theorem spurious_invalid_json_log (s : St) (ev : Ev) (h : ev ≠ Ev.malformed) :
    (∃ tail, (step s ev).1.logs = s.logs ++ LogEntry.invalidJson :: tail ∧
      LogEntry.invalidJson ∉ tail) ∧
    (step s Ev.malformed).1.logs = s.logs ++ [LogEntry.fault] :=
  ⟨step_logs_invalidJson s ev h, rfl⟩

/-- C10 witness at the initial state and a concrete `stop` event. -/
theorem spurious_invalid_json_log_check :
    Ev.stop ≠ Ev.malformed ∧
    ((∃ tail, (step init Ev.stop).1.logs =
        init.logs ++ LogEntry.invalidJson :: tail ∧
      LogEntry.invalidJson ∉ tail) ∧
     (step init Ev.malformed).1.logs = init.logs ++ [LogEntry.fault]) :=
  ⟨by decide, spurious_invalid_json_log init Ev.stop (by decide)⟩

/-- C3 counterexample: after a single 3200-byte inbound-only append the
channel-0 bytes sent so far (`[]`) are indeed a prefix of the inbound
stream, but the difference — the final inbound residual — is the whole
3200-byte stream, which is not sub-threshold, refuting the claim that the
residual difference is sub-threshold in each direction. -/
theorem order_preservation_cex :
    (websocket_endpoint [Ev.media (some "inbound")
        (List.replicate 3200 1)]).1.sent = [] ∧
    (websocket_endpoint [Ev.media (some "inbound")
        (List.replicate 3200 1)]).1.inHist = List.replicate 3200 1 ∧
    (websocket_endpoint [Ev.media (some "inbound")
        (List.replicate 3200 1)]).1.in_buffer = List.replicate 3200 1 ∧
    ¬((websocket_endpoint [Ev.media (some "inbound")
        (List.replicate 3200 1)]).1.in_buffer.length < buffer_size) := by
  have hnr : ¬(buffer_size ≤
      ({ init with
          logs := init.logs ++ [LogEntry.invalidJson]
          in_buffer := init.in_buffer ++ List.replicate 3200 1
          inHist := init.inHist ++ List.replicate 3200 1 } : St).in_buffer.length ∧
      buffer_size ≤
      ({ init with
          logs := init.logs ++ [LogEntry.invalidJson]
          in_buffer := init.in_buffer ++ List.replicate 3200 1
          inHist := init.inHist ++ List.replicate 3200 1 } : St).out_buffer.length) := by
    intro hco
    exact absurd hco.2 (by decide)
  have hstep : step init (Ev.media (some "inbound") (List.replicate 3200 1)) =
      ({ init with
          logs := init.logs ++ [LogEntry.invalidJson]
          in_buffer := init.in_buffer ++ List.replicate 3200 1
          inHist := init.inHist ++ List.replicate 3200 1 }, Outcome.cont) := by
    rw [step_media_in]
    exact runMix_not_ready _ hnr
  have hrun : websocket_endpoint [Ev.media (some "inbound")
      (List.replicate 3200 1)] =
      ({ init with
          logs := init.logs ++ [LogEntry.invalidJson]
          in_buffer := init.in_buffer ++ List.replicate 3200 1
          inHist := init.inHist ++ List.replicate 3200 1 }, Outcome.cont) := by
    unfold websocket_endpoint
    rw [run_cons_cont _ _ _ _ hstep, run_nil]
  rw [hrun]
  refine ⟨rfl, rfl, rfl, ?_⟩
  show ¬((([] : List Nat) ++ List.replicate 3200 1).length < buffer_size)
  rw [List.nil_append, List.length_replicate]
  decide

/-- C3 (corrected).  Order preservation: for every message sequence, the
concatenated channel-0 bytes of the emitted frames followed by the bytes
still buffered inbound are exactly the inbound bytes appended so far (so the
sent channel-0 stream is a prefix of the inbound stream, the difference
being the final inbound residual; symmetrically for channel 1/outbound); on
a run that processes the whole list the appended history is exactly the
concatenated inbound/outbound payloads; and whenever the session does not
end in a fault, the residual of at least one direction — the slower-filling
one — is below threshold, though the other direction may retain a residual
of threshold size or more (see the counterexample). -/
theorem order_preservation (msgs : List Ev) :
    channel0 (websocket_endpoint msgs).1.sent ++
        (websocket_endpoint msgs).1.in_buffer =
      (websocket_endpoint msgs).1.inHist ∧
    channel1 (websocket_endpoint msgs).1.sent ++
        (websocket_endpoint msgs).1.out_buffer =
      (websocket_endpoint msgs).1.outHist ∧
    ((websocket_endpoint msgs).2 = Outcome.cont →
      (websocket_endpoint msgs).1.inHist = inboundBytes msgs ∧
      (websocket_endpoint msgs).1.outHist = outboundBytes msgs) ∧
    ((websocket_endpoint msgs).2 ≠ Outcome.errored →
      (websocket_endpoint msgs).1.in_buffer.length < buffer_size ∨
      (websocket_endpoint msgs).1.out_buffer.length < buffer_size) := by
  unfold websocket_endpoint
  have hst := run_StInv msgs init ⟨rfl, rfl⟩
  refine ⟨hst.1, hst.2, ?_, ?_⟩
  · intro hc
    obtain ⟨h1, h2⟩ := run_cont_hist msgs init hc
    constructor
    · rw [h1]; exact List.nil_append _
    · rw [h2]; exact List.nil_append _
  · intro hne
    exact run_BufInv msgs init (Or.inl buffer_size_pos) hne

/-- C3 witness at a concrete one-event inbound sequence, discharging both
implications. -/
theorem order_preservation_check :
    (channel0 (websocket_endpoint [Ev.media (some "inbound") [7]]).1.sent ++
        (websocket_endpoint [Ev.media (some "inbound") [7]]).1.in_buffer =
      (websocket_endpoint [Ev.media (some "inbound") [7]]).1.inHist) ∧
    ((websocket_endpoint [Ev.media (some "inbound") [7]]).1.inHist =
      inboundBytes [Ev.media (some "inbound") [7]]) ∧
    ((websocket_endpoint [Ev.media (some "inbound") [7]]).1.in_buffer.length <
        buffer_size ∨
      (websocket_endpoint [Ev.media (some "inbound") [7]]).1.out_buffer.length <
        buffer_size) :=
  ⟨(order_preservation [Ev.media (some "inbound") [7]]).1,
   ((order_preservation [Ev.media (some "inbound") [7]]).2.2.1 (by decide)).1,
   (order_preservation [Ev.media (some "inbound") [7]]).2.2.2 (by decide)⟩

/-- C4 (code bug).  A single undecodable frame between two valid media
events does not get discarded with the connection staying open: the
`json.loads` exception escapes the receive loop, the fault is logged, and
the session is torn down, so the third (valid) message is never processed —
its bytes never reach the buffer or the history.  The misplaced
`logger.error("Invalid JSON received.")` after a successful decode and the
comment "Makes sure valid json is being sent" show the intended
try/except-and-continue handling is missing. -/
theorem malformed_frame_teardown :
    (websocket_endpoint [Ev.media (some "inbound") [1], Ev.malformed,
        Ev.media (some "inbound") [2]]).2 = Outcome.errored ∧
    (websocket_endpoint [Ev.media (some "inbound") [1], Ev.malformed,
        Ev.media (some "inbound") [2]]).1.in_buffer = [1] ∧
    (websocket_endpoint [Ev.media (some "inbound") [1], Ev.malformed,
        Ev.media (some "inbound") [2]]).1.inHist = [1] ∧
    (websocket_endpoint [Ev.media (some "inbound") [1], Ev.malformed,
        Ev.media (some "inbound") [2]]).1.logs =
      [LogEntry.invalidJson, LogEntry.fault] := by
  decide

/-- C5 counterexample: media-only traffic (no `start`) that brings both
buffers to the threshold makes the mix loop dereference the absent
connection: the session ends in a fault rather than continuing, refuting
the claim that the send branch is unreachable even when both buffers reach
the threshold.  No connection is ever opened (`opened = []`). -/
theorem media_before_start_cex :
    (websocket_endpoint [Ev.media (some "inbound") (List.replicate 3200 1),
        Ev.media (some "outbound") (List.replicate 3200 2)]).2 =
      Outcome.errored ∧
    (websocket_endpoint [Ev.media (some "inbound") (List.replicate 3200 1),
        Ev.media (some "outbound") (List.replicate 3200 2)]).1.opened = [] := by
  have hnr1 : ¬(buffer_size ≤
        (init.in_buffer ++ List.replicate 3200 1).length ∧
      buffer_size ≤ init.out_buffer.length) :=
    fun hco => absurd hco.2 (by decide)
  have hin2 : buffer_size ≤ (init.in_buffer ++ List.replicate 3200 1).length := by
    show buffer_size ≤ (([] : List Nat) ++ List.replicate 3200 1).length
    rw [List.nil_append, List.length_replicate]
    decide
  have hout2 : buffer_size ≤ (init.out_buffer ++ List.replicate 3200 2).length := by
    show buffer_size ≤ (([] : List Nat) ++ List.replicate 3200 2).length
    rw [List.nil_append, List.length_replicate]
    decide
  have hstep1 : step init (Ev.media (some "inbound") (List.replicate 3200 1)) =
      ({ init with
          logs := init.logs ++ [LogEntry.invalidJson]
          in_buffer := init.in_buffer ++ List.replicate 3200 1
          inHist := init.inHist ++ List.replicate 3200 1 }, Outcome.cont) := by
    rw [step_media_in]
    exact runMix_not_ready _ hnr1
  have hstep2 : step
      ({ init with
          logs := init.logs ++ [LogEntry.invalidJson]
          in_buffer := init.in_buffer ++ List.replicate 3200 1
          inHist := init.inHist ++ List.replicate 3200 1 } : St)
      (Ev.media (some "outbound") (List.replicate 3200 2)) =
      ({ init with
          logs := init.logs ++ [LogEntry.invalidJson] ++ [LogEntry.invalidJson]
            ++ [LogEntry.fault]
          in_buffer := init.in_buffer ++ List.replicate 3200 1
          inHist := init.inHist ++ List.replicate 3200 1
          out_buffer := init.out_buffer ++ List.replicate 3200 2
          outHist := init.outHist ++ List.replicate 3200 2 }, Outcome.errored) := by
    rw [step_media_out]
    exact runMix_none_ready _ rfl hin2 hout2
  unfold websocket_endpoint
  rw [run_cons_cont _ _ _ _ hstep1]
  rw [run_cons_halt _ _ _ _ _ hstep2 (by simp)]
  exact ⟨rfl, rfl⟩

/-- C5 (corrected, amended).  Media events before any `start` never create a
Transcription Session Client, and — as long as the two buffers cannot both
reach the threshold — the handler keeps running without fault and nothing is
sent; but when both buffers do reach the threshold before a `start`, the mix
loop faults on the absent connection and the session is torn down (see the
counterexample). -/
theorem media_before_start (msgs : List Ev)
    (hmedia : ∀ ev ∈ msgs, ev.isMedia = true)
    (hbound : (inboundBytes msgs).length < buffer_size ∨
      (outboundBytes msgs).length < buffer_size) :
    (websocket_endpoint msgs).1.opened = [] ∧
    (websocket_endpoint msgs).1.sent = [] ∧
    (websocket_endpoint msgs).2 = Outcome.cont := by
  have hb : init.in_buffer.length + (inboundBytes msgs).length < buffer_size ∨
      init.out_buffer.length + (outboundBytes msgs).length < buffer_size := by
    rcases hbound with h | h
    · left
      show ([] : List Nat).length + (inboundBytes msgs).length < buffer_size
      simpa using h
    · right
      show ([] : List Nat).length + (outboundBytes msgs).length < buffer_size
      simpa using h
  obtain ⟨h1, h2, h3⟩ := run_media_only msgs init hmedia rfl hb
  exact ⟨h1, h2, h3⟩

/-- C5 witness at a concrete sub-threshold media-only sequence. -/
theorem media_before_start_check :
    (∀ ev ∈ [Ev.media (some "inbound") [9, 9]], ev.isMedia = true) ∧
    ((inboundBytes [Ev.media (some "inbound") [9, 9]]).length < buffer_size ∨
      (outboundBytes [Ev.media (some "inbound") [9, 9]]).length < buffer_size) ∧
    ((websocket_endpoint [Ev.media (some "inbound") [9, 9]]).1.opened = [] ∧
     (websocket_endpoint [Ev.media (some "inbound") [9, 9]]).1.sent = [] ∧
     (websocket_endpoint [Ev.media (some "inbound") [9, 9]]).2 = Outcome.cont) :=
  ⟨by decide, Or.inl (by decide),
    media_before_start [Ev.media (some "inbound") [9, 9]] (by decide)
      (Or.inl (by decide))⟩

/-- C6 counterexample: when the Deepgram connect raises on `start`, the
session does not continue in degraded mode — the exception ends the session
immediately, and a following media event is never processed (its bytes
appear in no buffer and no history). -/
theorem connect_failure_cex :
    (websocket_endpoint [Ev.start (some "CA1") false,
        Ev.media (some "inbound") [1, 2, 3]]).2 = Outcome.errored ∧
    (websocket_endpoint [Ev.start (some "CA1") false,
        Ev.media (some "inbound") [1, 2, 3]]).1.in_buffer = [] ∧
    (websocket_endpoint [Ev.start (some "CA1") false,
        Ev.media (some "inbound") [1, 2, 3]]).1.inHist = [] ∧
    (websocket_endpoint [Ev.start (some "CA1") false,
        Ev.media (some "inbound") [1, 2, 3]]).1.sent = [] := by
  decide

/-- C6 (corrected, amended).  If opening the transcription connection on
`start` fails, the exception escapes the event loop: the fault is logged and
the session ends with no subsequent message processed (so no buffering, no
mixing, no send ever happens afterwards); separately, the `stop` branch does
guard on the connection being present, so a `stop` in a connection-less
state sends no terminator. -/
theorem connect_failure_teardown (sid : String) (hsid : sid ≠ "")
    (rest : List Ev) :
    websocket_endpoint (Ev.start (some sid) false :: rest) =
      ({ init with logs := [LogEntry.invalidJson, LogEntry.fault] },
        Outcome.errored) ∧
    (∀ s : St, s.deepgram_socket = none →
      (step s Ev.stop).1.closedSent = s.closedSent) := by
  constructor
  · unfold websocket_endpoint
    rw [run_cons_halt _ _ _ _ _ (step_start_fail init sid hsid) (by simp)]
    exact rfl
  · intro s hs
    rw [step_stop_none s hs]

/-- C6 witness at a concrete failing start followed by a media event. -/
theorem connect_failure_teardown_check :
    ("CA1" : String) ≠ "" ∧
    websocket_endpoint
        (Ev.start (some "CA1") false :: [Ev.media (some "inbound") [1]]) =
      ({ init with logs := [LogEntry.invalidJson, LogEntry.fault] },
        Outcome.errored) ∧
    (step init Ev.stop).1.closedSent = init.closedSent :=
  ⟨by decide,
    (connect_failure_teardown "CA1" (by decide) [Ev.media (some "inbound") [1]]).1,
    (connect_failure_teardown "CA1" (by decide) [Ev.media (some "inbound") [1]]).2
      init rfl⟩

/-- C7 (confirmed).  Residual discard: processing a `stop` event never mixes
or sends buffered audio — the sent list is unchanged and the loop exits — so
sub-threshold residuals die with the session; in particular `start`, 1000
inbound-only bytes, `stop` produces zero mixed frames and zero audio sends. -/
theorem residual_discard :
    (∀ s : St, (step s Ev.stop).1.sent = s.sent ∧
      (step s Ev.stop).2 = Outcome.stopped) ∧
    (websocket_endpoint [Ev.start (some "CA1") true,
        Ev.media (some "inbound") (List.replicate 1000 5), Ev.stop]).1.sent = [] ∧
    (websocket_endpoint [Ev.start (some "CA1") true,
        Ev.media (some "inbound") (List.replicate 1000 5), Ev.stop]).2 =
      Outcome.stopped := by
  refine ⟨step_stop_sent, ?_⟩
  have hstep1 : step init (Ev.start (some "CA1") true) =
      ({ deepgram_socket := some 0
         nextConn := 1
         in_buffer := []
         out_buffer := []
         opened := [0]
         closedSent := []
         sent := []
         logs := [LogEntry.invalidJson, LogEntry.sessionStarting "CA1"]
         inHist := []
         outHist := [] }, Outcome.cont) := by
    decide
  have hnr2 : ¬(buffer_size ≤
        (([] : List Nat) ++ List.replicate 1000 5).length ∧
      buffer_size ≤ ([] : List Nat).length) :=
    fun hco => absurd hco.2 (by decide)
  have hstep2 : step
      ({ deepgram_socket := some 0
         nextConn := 1
         in_buffer := []
         out_buffer := []
         opened := [0]
         closedSent := []
         sent := []
         logs := [LogEntry.invalidJson, LogEntry.sessionStarting "CA1"]
         inHist := []
         outHist := [] } : St)
      (Ev.media (some "inbound") (List.replicate 1000 5)) =
      ({ deepgram_socket := some 0
         nextConn := 1
         in_buffer := [] ++ List.replicate 1000 5
         out_buffer := []
         opened := [0]
         closedSent := []
         sent := []
         logs := [LogEntry.invalidJson, LogEntry.sessionStarting "CA1"]
           ++ [LogEntry.invalidJson]
         inHist := [] ++ List.replicate 1000 5
         outHist := [] }, Outcome.cont) := by
    rw [step_media_in]
    exact runMix_not_ready _ hnr2
  have hstep3 : step
      ({ deepgram_socket := some 0
         nextConn := 1
         in_buffer := [] ++ List.replicate 1000 5
         out_buffer := []
         opened := [0]
         closedSent := []
         sent := []
         logs := [LogEntry.invalidJson, LogEntry.sessionStarting "CA1"]
           ++ [LogEntry.invalidJson]
         inHist := [] ++ List.replicate 1000 5
         outHist := [] } : St) Ev.stop =
      ({ deepgram_socket := some 0
         nextConn := 1
         in_buffer := [] ++ List.replicate 1000 5
         out_buffer := []
         opened := [0]
         closedSent := [] ++ [0]
         sent := []
         logs := ([LogEntry.invalidJson, LogEntry.sessionStarting "CA1"]
           ++ [LogEntry.invalidJson]) ++ [LogEntry.invalidJson]
         inHist := [] ++ List.replicate 1000 5
         outHist := [] }, Outcome.stopped) := by
    rw [step_stop_some _ 0 rfl]
  unfold websocket_endpoint
  rw [run_cons_cont _ _ _ _ hstep1]
  rw [run_cons_cont _ _ _ _ hstep2]
  rw [run_cons_halt _ _ _ _ _ hstep3 (by simp)]
  exact ⟨rfl, rfl⟩

/-- C9 counterexample: two `start` events in one session open two
connections; the first opened connection never receives the close
terminator — only the most recent one does at `stop` — refuting "at most one
live client at any time" and "every opened connection is the one closed at
stop". -/
theorem double_start_cex :
    (websocket_endpoint [Ev.start (some "A") true, Ev.start (some "B") true,
        Ev.stop]).1.opened = [0, 1] ∧
    (websocket_endpoint [Ev.start (some "A") true, Ev.start (some "B") true,
        Ev.stop]).1.closedSent = [1] := by
  decide

/-- C9 (corrected, amended).  For sessions with at most one `start` event, at
most one connection is ever opened, and every connection that receives the
close terminator is one that was opened; with repeated `start` events each
one opens a fresh connection, replacing the handler's reference, and earlier
connections are never closed (see the counterexample). -/
theorem single_connection (msgs : List Ev) (h : countStarts msgs ≤ 1) :
    (websocket_endpoint msgs).1.opened.length ≤ 1 ∧
    (∀ c ∈ (websocket_endpoint msgs).1.closedSent,
      c ∈ (websocket_endpoint msgs).1.opened) := by
  unfold websocket_endpoint
  obtain ⟨h1, h2⟩ := run_conn msgs init
    (by intro c hc; exact absurd hc (by simp [init]))
    (by intro c hc; exact absurd hc (by simp [init]))
  refine ⟨?_, h1⟩
  have h0 : init.opened.length = 0 := rfl
  omega

/-- C9 witness at a concrete single-start session. -/
theorem single_connection_check :
    countStarts [Ev.start (some "A") true, Ev.stop] ≤ 1 ∧
    ((websocket_endpoint [Ev.start (some "A") true, Ev.stop]).1.opened.length ≤ 1 ∧
     (∀ c ∈ (websocket_endpoint [Ev.start (some "A") true, Ev.stop]).1.closedSent,
       c ∈ (websocket_endpoint [Ev.start (some "A") true, Ev.stop]).1.opened)) :=
  ⟨by decide,
    single_connection [Ev.start (some "A") true, Ev.stop] (by decide)⟩

end SWBridge
